import Mathlib

/-!
# Verification of the receipt-email-center Gmail forwarding pipeline

This file gives a shallow embedding, in Lean 4, of the core of the
`receipt-email-center` repository:

* `email_search_sync/gmail_forward_router.py` — the forwarding pipeline
  (`send_email_via_smtp_async`, `check_already_imported`,
  `mark_as_imported_batch`, `process_single_email`, `forward_emails`);
* `email_search_sync/gmail_client_service.py` — credential acquisition
  (`generate_email_hash`, `GmailClient._get_token_data`,
  `GmailClient._update_access_token`, `GmailClient._async_initialize`);
* `core/models.py` — the `UserEmailToken` and `ImportedEmail` records.

External effects (SMTP socket I/O, the Gmail API, wall-clock time, the
PostgreSQL store, the `hashlib` / `base64` / encryption primitives) are
modelled as explicit oracle parameters; the control flow, data flow and
string manipulation of the Python source are translated directly.
Machine-level floats do not occur in any property below; the two places
Python computes `round(x, 2)` on a float are modelled over `ℚ`
(`roundPy2`), with a comment where the rounding mode is immaterial.

Concurrency: `forward_emails` runs its per-message jobs under
`asyncio.Semaphore(concurrent_limit)` and joins them with
`asyncio.gather`.  `gather` returns only after every task has finished
and preserves submission order in its result list; the embedding
therefore computes the per-job results in submission order and exposes
the nondeterministic completion order as an explicit schedule parameter
used for the event trace.  The semaphore itself is modelled separately
as a small-step transition system (`semStep`).
-/

/-! ## Python string primitives used by the source -/

/-- Python `str.lower` on one character, restricted to the ASCII range
(uppercase `A`–`Z` maps to `a`–`z`, everything else is fixed).  The email
addresses this repository hashes are ASCII; non-ASCII case folding is not
modelled. -/
def pyLowerChar (c : Char) : Char :=
  if 'A' ≤ c ∧ c ≤ 'Z' then Char.ofNat (c.toNat + 32) else c

/-- Python `str.lower` (ASCII fragment), applied characterwise. -/
def pyLower (s : String) : String :=
  ⟨s.data.map pyLowerChar⟩

/-- The characters Python `str.strip()` removes (ASCII whitespace). -/
def pyIsSpace (c : Char) : Bool :=
  c = ' ' ∨ c = '\t' ∨ c = '\n' ∨ c = '\r' ∨ c = '\x0b' ∨ c = '\x0c'

/-- Python `str.strip()`: drop leading and trailing whitespace. -/
def pyStrip (s : String) : String :=
  ⟨((s.data.dropWhile pyIsSpace).reverse.dropWhile pyIsSpace).reverse⟩

/-- Python `sep.join(parts)`. -/
def pyJoin (sep : String) : List String → String
  | [] => ""
  | [x] => x
  | x :: y :: rest => x ++ sep ++ pyJoin sep (y :: rest)

/-- Python `s.replace(old, new)` for single-character `old`/`new`, the only
form the source uses (`replace('-', '+')`, `replace('_', '/')`). -/
def pyReplaceChar (s : String) (old new : Char) : String :=
  ⟨s.data.map (fun c => if c = old then new else c)⟩

/-- `'=' * n`: a run of `n` padding characters. -/
def padRun (n : Nat) : String :=
  ⟨List.replicate n '='⟩

/-! ## `generate_email_hash` (gmail_client_service.py lines 17–19 and
gmail_auth_router.py lines 19–21)

```python
def generate_email_hash(email: str) -> str:
    return hashlib.sha256(email.lower().encode('utf-8')).hexdigest()
```

`hashlib.sha256(...).hexdigest()` composed with UTF-8 encoding is a pure
deterministic function of the lowered string; it is passed in as the
oracle `sha256hex`. -/

def generate_email_hash (sha256hex : String → String) (email : String) : String :=
  sha256hex (pyLower email)

/-- Two strings are casing variants when they agree characterwise up to
ASCII case. -/
def caseVariant (e e' : String) : Prop :=
  List.Forall₂ (fun a b => pyLowerChar a = pyLowerChar b) e.data e'.data

/-! ### Lemmas about `pyLowerChar` -/

theorem char_toNat_ofNat (n : Nat) (h : n.isValidChar) : (Char.ofNat n).toNat = n := by
  unfold Char.ofNat
  rw [dif_pos h]
  rfl

theorem char_le_iff_toNat (a b : Char) : a ≤ b ↔ a.toNat ≤ b.toNat := by
  constructor
  · intro h; exact h
  · intro h; exact h

theorem pyLowerChar_idem (c : Char) : pyLowerChar (pyLowerChar c) = pyLowerChar c := by
  unfold pyLowerChar
  by_cases h : 'A' ≤ c ∧ c ≤ 'Z'
  · rw [if_pos h]
    have h65 : 65 ≤ c.toNat := (char_le_iff_toNat 'A' c).mp h.1
    have h90 : c.toNat ≤ 90 := (char_le_iff_toNat c 'Z').mp h.2
    have hv : (c.toNat + 32).isValidChar := by left; omega
    have ht : (Char.ofNat (c.toNat + 32)).toNat = c.toNat + 32 := char_toNat_ofNat _ hv
    rw [if_neg]
    intro g
    have hZ : ('Z').toNat = 90 := by decide
    have := (char_le_iff_toNat _ _).mp g.2
    rw [ht, hZ] at this
    omega
  · rw [if_neg h, if_neg h]

theorem pyLower_idem (s : String) : pyLower (pyLower s) = pyLower s := by
  unfold pyLower
  apply congrArg
  simp [List.map_map, Function.comp]
  exact fun c _ => pyLowerChar_idem c

theorem forall2_map_eq {l l' : List Char}
    (h : List.Forall₂ (fun a b => pyLowerChar a = pyLowerChar b) l l') :
    l.map pyLowerChar = l'.map pyLowerChar := by
  induction h with
  | nil => rfl
  | cons hab _ ih => simpa [hab] using ih

theorem pyLower_eq_of_caseVariant {e e' : String} (h : caseVariant e e') :
    pyLower e = pyLower e' := by
  unfold pyLower
  exact congrArg _ (forall2_map_eq h)

theorem caseVariant_pyLower (e : String) : caseVariant e (pyLower e) := by
  unfold caseVariant pyLower
  show List.Forall₂ _ e.data (e.data.map pyLowerChar)
  induction e.data with
  | nil => exact List.Forall₂.nil
  | cons c cs ih => exact List.Forall₂.cons (pyLowerChar_idem c).symm ih

/-! ## Relay transport: `send_email_via_smtp_async`
(gmail_forward_router.py lines 43–122)

One SMTP attempt (`_send_sync`) either succeeds, or raises
`smtplib.SMTPAuthenticationError`, `smtplib.SMTPException`, or another
exception; all three are re-raised as `EmailForwardError` with the
f-string messages below.  The outer coroutine retries any
`EmailForwardError` while `retry_count < MAX_RETRY_ATTEMPTS`, sleeping
`RETRY_DELAY_SECONDS * (retry_count + 1)` seconds first, and re-raises
once the cap is reached.  The outcome of each network attempt is an
oracle `Nat → SmtpAttemptResult` indexed by `retry_count`; the returned
list collects the sleep durations, in order. -/

deriving instance DecidableEq for Except

def MAX_RETRY_ATTEMPTS : Nat := 3

def RETRY_DELAY_SECONDS : Nat := 2

inductive SmtpAttemptResult where
  | ok
  | authError (msg : String)
  | smtpError (msg : String)
  | otherError (msg : String)
deriving DecidableEq, Repr

/-- `_send_sync`: wraps each failure kind into the `EmailForwardError`
message the source builds (`str(e)` of the raised error). -/
def sendSyncResult : SmtpAttemptResult → Except String Unit
  | .ok => .ok ()
  | .authError m => .error ("SMTP authentication failed: " ++ m)
  | .smtpError m => .error ("SMTP error: " ++ m)
  | .otherError m => .error ("Unexpected error: " ++ m)

/-- Retry loop of `send_email_via_smtp_async`.  The Python recursion
increases `retry_count` and is bounded by the `retry_count <
MAX_RETRY_ATTEMPTS` guard; `fuel` (always instantiated with
`MAX_RETRY_ATTEMPTS - retry_count`) makes that bound structural.
`sendEmailViaSmtpAsync_unfold` below proves the definition satisfies the
source-shaped recurrence. -/
def sendLoop (oracle : Nat → SmtpAttemptResult) : Nat → Nat → Except String Bool × List Nat
  | retry_count, fuel =>
    match sendSyncResult (oracle retry_count) with
    | .ok _ => (.ok true, [])
    | .error e =>
      if retry_count < MAX_RETRY_ATTEMPTS then
        match fuel with
        | 0 => (.error e, [])
        | f + 1 =>
          let rest := sendLoop oracle (retry_count + 1) f
          (rest.1, RETRY_DELAY_SECONDS * (retry_count + 1) :: rest.2)
      else (.error e, [])

/-- `send_email_via_smtp_async(..., retry_count)`: `.ok true` mirrors the
`return True`, `.error e` the `EmailForwardError` that escapes once the
retry cap is exhausted.  The second component is the list of back-off
sleeps performed. -/
def sendEmailViaSmtpAsync (oracle : Nat → SmtpAttemptResult) (retry_count : Nat) :
    Except String Bool × List Nat :=
  sendLoop oracle retry_count (MAX_RETRY_ATTEMPTS - retry_count)

/-- The definition satisfies exactly the recurrence written in the
source: try the attempt; on failure retry (after a linear back-off
sleep) while below the cap, else re-raise the current error. -/
theorem sendEmailViaSmtpAsync_unfold (oracle : Nat → SmtpAttemptResult) (rc : Nat) :
    sendEmailViaSmtpAsync oracle rc =
      match sendSyncResult (oracle rc) with
      | .ok _ => (.ok true, [])
      | .error e =>
        if rc < MAX_RETRY_ATTEMPTS then
          ((sendEmailViaSmtpAsync oracle (rc + 1)).1,
            RETRY_DELAY_SECONDS * (rc + 1) :: (sendEmailViaSmtpAsync oracle (rc + 1)).2)
        else (.error e, []) := by
  unfold sendEmailViaSmtpAsync
  rw [sendLoop]
  cases h : sendSyncResult (oracle rc) with
  | ok u => rfl
  | error e =>
    by_cases hrc : rc < MAX_RETRY_ATTEMPTS
    · have hf : MAX_RETRY_ATTEMPTS - rc = (MAX_RETRY_ATTEMPTS - (rc + 1)) + 1 := by
        unfold MAX_RETRY_ATTEMPTS at hrc ⊢
        omega
      rw [hf]
    · simp [hrc]

/-! ## Per-message processing: `process_single_email`
(gmail_forward_router.py lines 165–244)

The per-job result is the literal Python dict the source builds, as an
ordered key/value list.  `round(x, 2)` on the float size/duration is
modelled over `ℚ` with half-up rounding (`roundPy2`); Python rounds
half-to-even on floats, but no property below distinguishes rounding
modes (they are only ever compared between identical computations).
The wall-clock `time.time()` difference is an oracle (`duration`), and
`base64.b64decode` is the stdlib primitive `b64decode`. -/

inductive PyVal where
  | s (v : String)
  | q (v : ℚ)
deriving DecidableEq, Repr

def EmailDetail : Type := List (String × PyVal)

instance : DecidableEq EmailDetail := by
  unfold EmailDetail
  infer_instance

/-- Dict access with a default of "absent". -/
def detailGet (d : EmailDetail) (k : String) : Option PyVal :=
  (d.find? (fun kv => kv.1 == k)).map (fun kv => kv.2)

/-- `r[k]` for the string-valued fields (`message_id`, `status`, `reason`). -/
def detailStr (d : EmailDetail) (k : String) : String :=
  match detailGet d k with
  | some (.s v) => v
  | _ => ""

/-- `round(x, 2)` over `ℚ` (half-up; see the section comment). -/
def roundPy2 (x : ℚ) : ℚ :=
  ((Int.fdiv (200 * x.num + x.den) (2 * x.den) : ℤ) : ℚ) / 100

/-- Outcome of `gmail.service.users().messages().get(...).execute()` plus
`msg.get("raw")`: the call returns a message whose `raw` field may be
absent, or raises (caught by the final `except Exception`). -/
inductive FetchOutcome where
  | msgRaw (raw : Option String)
  | fetchRaise (msg : String)
deriving DecidableEq, Repr

def processSingleEmail (b64decode : String → List Nat) (fetchRes : FetchOutcome)
    (smtp : Nat → SmtpAttemptResult) (duration : ℚ) (message_id : String)
    (is_imported : Bool) : EmailDetail × List Nat :=
  if is_imported then
    ([("message_id", .s message_id), ("status", .s "skipped"),
      ("reason", .s "already_imported")], [])
  else
    match fetchRes with
    | .fetchRaise m =>
      ([("message_id", .s message_id), ("status", .s "failed"),
        ("reason", .s ("unexpected_error: " ++ m))], [])
    | .msgRaw none =>
      ([("message_id", .s message_id), ("status", .s "failed"),
        ("reason", .s "no_raw_content")], [])
    | .msgRaw (some raw_eml_base64url) =>
      let step1 := pyReplaceChar (pyReplaceChar raw_eml_base64url '-' '+') '_' '/'
      let padding := step1.length % 4
      let raw_eml_base64 := if padding ≠ 0 then step1 ++ padRun (4 - padding) else step1
      let raw_eml_bytes := b64decode raw_eml_base64
      let email_size_kb : ℚ := (raw_eml_bytes.length : ℚ) / 1024
      let send := sendEmailViaSmtpAsync smtp 0
      match send.1 with
      | .ok _ =>
        ([("message_id", .s message_id), ("status", .s "forwarded"),
          ("size_kb", .q (roundPy2 email_size_kb)),
          ("duration_seconds", .q (roundPy2 duration))], send.2)
      | .error e =>
        ([("message_id", .s message_id), ("status", .s "failed"),
          ("reason", .s e)], send.2)

/-! ## Dedup ledger: `check_already_imported` / `mark_as_imported_batch`
(gmail_forward_router.py lines 125–162)

The `imported_emails` table is the list of `(user_id, message_id)` rows
(`attachment_id` is the constant `"WHOLE_MESSAGE"` and is dropped). -/

/-- `check_already_imported`: one batched membership query followed by the
dict comprehension `{mid: (mid in imported_ids) for mid in message_ids}`. -/
def checkAlreadyImported (importedDb : List (String × String)) (user_id : String)
    (message_ids : List String) : List (String × Bool) :=
  let imported_ids :=
    (importedDb.filter (fun r => r.1 == user_id && message_ids.contains r.2)).map
      (fun r => r.2)
  message_ids.map (fun mid => (mid, imported_ids.contains mid))

/-- `imported_status.get(mid, False)`. -/
def dictGetBool (d : List (String × Bool)) (k : String) : Bool :=
  match d.find? (fun kv => kv.1 == k) with
  | some kv => kv.2
  | none => false

/-- `mark_as_imported_batch`: a single batched insert with
`on_conflict_do_nothing(index_elements=['user_id', 'message_id'])`. -/
def markAsImportedBatch (importedDb : List (String × String)) (user_id : String)
    (message_ids : List String) : List (String × String) :=
  if message_ids = [] then importedDb
  else
    message_ids.foldl
      (fun db mid => if db.contains (user_id, mid) then db else db ++ [(user_id, mid)])
      importedDb

/-! ## Credential store: `UserEmailToken` (core/models.py) and
`GmailClient` (gmail_client_service.py) -/

/-- One row of `user_email_tokens`.  `email`, `access_token` and
`refresh_token` are ciphertext (`NOT NULL` columns); `token_uri`,
`client_id`, `client_secret` and `expiry` are nullable.  The unique index
is `(user_id, email_provider, email_hash)`. -/
structure UserEmailToken where
  user_id : String
  email_provider : String
  email : String
  email_hash : String
  access_token : String
  refresh_token : String
  token_uri : Option String
  client_id : Option String
  client_secret : Option String
  expiry : Option String
deriving DecidableEq, Repr

/-- The dict `_get_token_data` returns on a match. -/
structure TokenData where
  email : String
  email_hash : String
  access_token : String
  refresh_token : String
  token_uri : Option String
  client_id : Option String
  client_secret : Option String
deriving DecidableEq, Repr

/-- Python truthiness of `self.email : Optional[str]`. -/
def emailTruthy : Option String → Bool
  | none => false
  | some s => s ≠ ""

/-- The row filter of `_get_token_data`'s query: `user_id` and
`email_provider == 'gmail'` always, plus the `email_hash` clause when
`self.email` is truthy. -/
def tokenQueryMatches (sha256hex : String → String) (user_id : String)
    (email : Option String) (t : UserEmailToken) : Bool :=
  t.user_id == user_id && t.email_provider == "gmail" &&
    (if emailTruthy email then t.email_hash == generate_email_hash sha256hex (email.getD "")
     else true)

/-- `GmailClient._get_token_data` (lines 103–142): `.ok none` when no row
matches, an exception (here `.error`) listing the decrypted candidate
addresses when several rows match and no account was specified, otherwise
the first row's fields. -/
def getTokenData (sha256hex decrypt : String → String) (db : List UserEmailToken)
    (user_id : String) (email : Option String) : Except String (Option TokenData) :=
  let tokens := db.filter (tokenQueryMatches sha256hex user_id email)
  match tokens with
  | [] => .ok none
  | t :: _rest =>
    if 1 < tokens.length ∧ ¬ emailTruthy email then
      .error ("User " ++ user_id ++ " has " ++ toString tokens.length ++
        " Gmail accounts linked. Please specify which email to use: " ++
        pyJoin ", " (tokens.map (fun tk => decrypt tk.email)))
    else
      .ok (some ⟨t.email, t.email_hash, t.access_token, t.refresh_token,
        t.token_uri, t.client_id, t.client_secret⟩)

/-- Whether a row has the upsert key `(user_id, 'gmail', email_hash)` used by
`_update_access_token`'s `on_conflict_do_update(index_elements=
['user_id', 'email_provider', 'email_hash'])`. -/
def tokenKeyMatches (user_id email_hash : String) (t : UserEmailToken) : Bool :=
  t.user_id == user_id && t.email_provider == "gmail" && t.email_hash == email_hash

/-- The conflict-branch row update: `set_={'access_token': encrypted_token}` —
only the `access_token` column is written. -/
def applyTokenConflictUpdate (encrypted_token user_id email_hash : String)
    (t : UserEmailToken) : UserEmailToken :=
  if tokenKeyMatches user_id email_hash t then { t with access_token := encrypted_token }
  else t

/-- `GmailClient._update_access_token` (lines 144–164): encrypt the new
token, then `INSERT ... ON CONFLICT (user_id, email_provider, email_hash)
DO UPDATE SET access_token = ...`.  The insert branch supplies only
`user_id`, `email_provider='gmail'`, `email_hash` and `access_token`; in
PostgreSQL it would violate the NOT NULL constraints on `email` and
`refresh_token` (modelled with `""`), but the method is only ever called
for a key that `_get_token_data` just returned, so the conflict branch is
the one taken in the program. -/
def updateAccessToken (encrypt : String → String) (db : List UserEmailToken)
    (user_id new_token email_hash : String) : List UserEmailToken :=
  let encrypted_token := encrypt new_token
  if db.any (tokenKeyMatches user_id email_hash) then
    db.map (applyTokenConflictUpdate encrypted_token user_id email_hash)
  else
    db ++ [⟨user_id, "gmail", "", email_hash, encrypted_token, "", none, none, none, none⟩]

/-- The `error_msg` built by `_async_initialize` when `_get_token_data`
returns nothing. -/
def noTokenMsg (user_id : String) (email : Option String) : String :=
  "No Gmail token found for user " ++ user_id ++
    (if emailTruthy email then " with email " ++ email.getD "" else "")

/-- `GmailClient._async_initialize` (lines 59–88).  `credsValid` is the
google-auth predicate `creds.valid` on the decrypted credential (external
library); `refreshResult` is the outcome of `creds.refresh(Request())`,
carrying the new access token and the new expiry the provider returned
(`.error` models the raised refresh exception, e.g. `invalid_grant`).
Returns the resolved `user_email` (`decrypt_value(token_data["email"])`)
together with the token store as left after any refresh write-back. -/
def gmailAsyncInit (sha256hex encrypt decrypt : String → String) (credsValid : Bool)
    (refreshResult : Except String (String × String)) (db : List UserEmailToken)
    (user_id : String) (email : Option String) :
    Except String (String × List UserEmailToken) :=
  match getTokenData sha256hex decrypt db user_id email with
  | .error e => .error e
  | .ok none => .error (noTokenMsg user_id email)
  | .ok (some token_data) =>
    if ¬ credsValid then
      match refreshResult with
      | .error m => .error m
      | .ok (new_access_token, _new_expiry) =>
        let db2 := updateAccessToken encrypt db user_id new_access_token token_data.email_hash
        .ok (decrypt token_data.email, db2)
    else
      .ok (decrypt token_data.email, db)

/-! ## The batch endpoint: `forward_emails`
(gmail_forward_router.py lines 247–342)

All external effects are collected in `ForwardEnv`.  The per-job oracles
(`fetch`, `smtp`, `jobDuration`) are indexed by the job's submission
index, since each concurrent task talks to the outside world on its own.
`sched` lists the job indices in the order their tasks complete; the
per-job result list itself is in submission order, as `asyncio.gather`
preserves it.  The trace records the batched dedup lookup, each
attempted provider fetch, each job settling, and the batched dedup mark
issued after `gather` has returned. -/

inductive FwdEvent where
  | dedupCheck (user : String) (ids : List String)
  | fetchMsg (mid : String)
  | jobSettled (mid : String)
  | markBatch (user : String) (ids : List String)
deriving DecidableEq, Repr

structure ForwardEnv where
  sha256hex : String → String
  encrypt : String → String
  decrypt : String → String
  credsValid : Bool
  refreshResult : Except String (String × String)
  tokenDb : List UserEmailToken
  importedDb : List (String × String)
  b64decode : String → List Nat
  fetch : Nat → FetchOutcome
  smtp : Nat → Nat → SmtpAttemptResult
  jobDuration : Nat → ℚ
  batchDuration : ℚ
  configOk : Bool
  inboxDomain : String

structure ForwardSummary where
  total : Nat
  forwarded : Nat
  skipped : Nat
  failed : Nat
  total_duration_seconds : ℚ
  average_duration_seconds : ℚ
deriving DecidableEq, Repr

structure ForwardResponse where
  summary : ForwardSummary
  details : List EmailDetail
  virtual_inbox : String
  source_email : String
deriving DecidableEq

/-- Python `str.split(sep)` for a one-character separator, on the
character list: splits at every separator occurrence, keeping empty
parts (`"".split(',') == ['']`). -/
def splitCharList (sep : Char) : List Char → List (List Char)
  | [] => [[]]
  | c :: rest =>
    let r := splitCharList sep rest
    if c = sep then [] :: r
    else
      match r with
      | [] => [[c]]
      | h :: t => (c :: h) :: t

/-- Python `s.split(sep)` for a one-character separator. -/
def pySplit (s : String) (sep : Char) : List String :=
  (splitCharList sep s.data).map (fun l => ⟨l⟩)

/-- `[mid.strip() for mid in message_ids.split(',') if mid.strip()]` —
the parse of the requested message ids. -/
def parseMessageIds (message_ids : String) : List String :=
  (pySplit message_ids ',').filterMap (fun part =>
    let t := pyStrip part
    if t = "" then none else some t)

/-- The per-character job list the handler actually dispatches: it
iterates `message_ids` — the raw comma-separated *string* — so every
character (commas and spaces included) becomes its own job. -/
def requestJobIds (message_ids : String) : List String :=
  message_ids.data.map Char.toString

/-- `[r["message_id"] for r in results if r["status"] == "forwarded"]`. -/
def forwardedIdsOf (results : List EmailDetail) : List String :=
  (results.filter (fun r => detailStr r "status" == "forwarded")).map
    (fun r => detailStr r "message_id")

def countStatus (results : List EmailDetail) (st : String) : Nat :=
  (results.filter (fun r => detailStr r "status" == st)).length

/-- The job-completion part of the batch trace: for each job index, in
completion order, the attempted provider fetch (absent for jobs skipped
by the dedup pre-check) followed by the job settling. -/
def settleTraceOf (imported_status : List (String × Bool)) (jobIds : List String)
    (sched : List Nat) : List FwdEvent :=
  (sched.map (fun i =>
    let mid := jobIds.getD i ""
    (if dictGetBool imported_status mid then [] else [FwdEvent.fetchMsg mid]) ++
      [FwdEvent.jobSettled mid])).flatten

/-- The per-job result list (`results = await asyncio.gather(*tasks)`):
one `process_single_email` result per *character* of the raw
`message_ids` string (see `requestJobIds`), in submission order, each
job consulting the dict built by `check_already_imported`. -/
def batchResults (env : ForwardEnv) (user_id message_ids : String) : List EmailDetail :=
  (requestJobIds message_ids).enum.map (fun p =>
    (processSingleEmail env.b64decode (env.fetch p.1) (env.smtp p.1)
      (env.jobDuration p.1) p.2
      (dictGetBool (checkAlreadyImported env.importedDb user_id
        (requestJobIds message_ids)) p.2)).1)

/-- The response body `forward_emails` returns on its success path:
summary counts, the per-job details, the virtual inbox address and the
source address. -/
def forwardOkResponse (env : ForwardEnv) (user_id email message_ids : String) :
    ForwardResponse :=
  { summary :=
      { total := message_ids.length
        forwarded := countStatus (batchResults env user_id message_ids) "forwarded"
        skipped := countStatus (batchResults env user_id message_ids) "skipped"
        failed := countStatus (batchResults env user_id message_ids) "failed"
        total_duration_seconds := roundPy2 env.batchDuration
        average_duration_seconds :=
          if message_ids ≠ "" then
            roundPy2 (env.batchDuration / (message_ids.length : ℚ))
          else 0 }
    details := batchResults env user_id message_ids
    virtual_inbox := user_id ++ "@" ++ env.inboxDomain
    source_email := email }

/-- `forward_emails(user_id, email, message_ids, concurrent_limit)`.

`.error (code, detail)` models a raised `HTTPException`; FastAPI's
`Query(ge=1, le=10)` bound on `concurrent_limit` is checked before the
handler body runs (a 422 with no work done).  Note the source computes
`message_id_list` and never uses it again: the dedup check, the task
list and `summary["total"]` all iterate the raw string. -/
def forwardEmails (env : ForwardEnv) (sched : List Nat)
    (user_id email message_ids : String) (concurrent_limit : Nat) :
    Except (Nat × String) ForwardResponse × List FwdEvent :=
  if ¬ (1 ≤ concurrent_limit ∧ concurrent_limit ≤ 10) then
    (.error (422, "concurrent_limit out of range"), [])
  else
    let _message_id_list := parseMessageIds message_ids
    if ¬ env.configOk then
      (.error (500, "SMTP configuration error"), [])
    else
      match gmailAsyncInit env.sha256hex env.encrypt env.decrypt env.credsValid
          env.refreshResult env.tokenDb user_id (some email) with
      | .error e => (.error (500, "Gmail client initialization failed: " ++ e), [])
      | .ok (ue, _tokenDb2) =>
        let user_email := if ue = "" then "noreply@receiptdrop.dev" else ue
        let _ := user_email
        let jobIds := requestJobIds message_ids
        let imported_status := checkAlreadyImported env.importedDb user_id jobIds
        let results := batchResults env user_id message_ids
        let forwarded_ids := forwardedIdsOf results
        let settleEvents := settleTraceOf imported_status jobIds sched
        let markEvents :=
          if forwarded_ids.isEmpty then [] else [FwdEvent.markBatch user_id forwarded_ids]
        (.ok (forwardOkResponse env user_id email message_ids),
          FwdEvent.dedupCheck user_id jobIds :: settleEvents ++ markEvents)

/-! ## The concurrency bound: `asyncio.Semaphore(concurrent_limit)`
(gmail_forward_router.py lines 291–302)

```python
semaphore = asyncio.Semaphore(concurrent_limit)
async def process_with_semaphore(mid):
    async with semaphore:
        return await process_single_email(...)
```

Every job acquires the semaphore before any of its fetch/deliver work and
releases it when that work finishes.  This is the standard counting
semaphore discipline, modelled as a transition system over the scheduler
states: `avail` is the semaphore's internal counter, `waiting` the jobs
that have not yet entered the `async with` block, `running` the jobs
inside it (doing fetch/deliver work), `done` the settled jobs.  The event
loop may interleave acquisitions and releases arbitrarily. -/

structure SemState where
  avail : Nat
  waiting : List Nat
  running : List Nat
  done : List Nat
deriving DecidableEq, Repr

/-- Initial scheduler state for a batch of jobs under
`asyncio.Semaphore(concurrent_limit)`: the counter starts at the limit,
all jobs are waiting. -/
def semInit (concurrent_limit : Nat) (jobs : List Nat) : SemState :=
  ⟨concurrent_limit, jobs, [], []⟩

/-- One scheduler step: a waiting job acquires the semaphore (only when
the counter is positive — otherwise `async with semaphore` suspends), or
a running job finishes its fetch/deliver work and releases it. -/
inductive semStep : SemState → SemState → Prop
  | acquire (j : Nat) (s : SemState) (hj : j ∈ s.waiting) (ha : 0 < s.avail) :
      semStep s ⟨s.avail - 1, s.waiting.erase j, j :: s.running, s.done⟩
  | release (j : Nat) (s : SemState) (hj : j ∈ s.running) :
      semStep s ⟨s.avail + 1, s.waiting, s.running.erase j, j :: s.done⟩

/-- Reachability of scheduler states from the batch start. -/
def semReachable (concurrent_limit : Nat) (jobs : List Nat) (s : SemState) : Prop :=
  Relation.ReflTransGen semStep (semInit concurrent_limit jobs) s

theorem semStep_preserves_sum {s t : SemState} (h : semStep s t) (L : Nat)
    (hs : s.avail + s.running.length = L) : t.avail + t.running.length = L := by
  cases h with
  | acquire j s hj ha =>
    simp only [List.length_cons]
    omega
  | release j s hj =>
    have : (s.running.erase j).length = s.running.length - 1 :=
      List.length_erase_of_mem hj
    have hpos : 0 < s.running.length := List.length_pos.mpr (List.ne_nil_of_mem hj)
    simp only [this]
    omega

theorem semReachable_sum (concurrent_limit : Nat) (jobs : List Nat) (s : SemState)
    (h : semReachable concurrent_limit jobs s) :
    s.avail + s.running.length = concurrent_limit := by
  induction h with
  | refl => simp [semInit]
  | tail _ hstep ih => exact semStep_preserves_sum hstep _ ih

/-! ## Claim theorems -/

/-- **C10**: `generate_email_hash` is case-insensitive: casing variants of
an email address (and in particular `e` versus `e.lower()`) hash
identically, for any hash primitive, so two linkings of the same address
differing only in letter case resolve to the same credential record.
Determinism is immediate since the embedding is a function of its
arguments. -/
theorem c10_email_hash_case_insensitive (sha256hex : String → String) (e e' : String)
    (h : caseVariant e e') :
    generate_email_hash sha256hex e = generate_email_hash sha256hex e' ∧
    generate_email_hash sha256hex e = generate_email_hash sha256hex (pyLower e) := by
  constructor
  · unfold generate_email_hash
    rw [pyLower_eq_of_caseVariant h]
  · unfold generate_email_hash
    rw [pyLower_idem]

theorem c10_email_hash_case_insensitive_witness :
    caseVariant "Alice@Gmail.COM" (pyLower "Alice@Gmail.COM") ∧
    pyLower "Alice@Gmail.COM" = "alice@gmail.com" ∧
    generate_email_hash (fun s => s) "Alice@Gmail.COM" =
      generate_email_hash (fun s => s) (pyLower "Alice@Gmail.COM") :=
  ⟨caseVariant_pyLower _, by decide,
    (c10_email_hash_case_insensitive (fun s => s) "Alice@Gmail.COM"
      (pyLower "Alice@Gmail.COM") (caseVariant_pyLower _)).1⟩

/-- **C2** (counterexample): the claim says an SMTP authentication failure
is fatal and never retried, the job failing immediately.  In the code
`smtplib.SMTPAuthenticationError` is wrapped into the same
`EmailForwardError` as every other SMTP failure and hits the same retry
branch: with an authentication failure on attempt 0 and success on
attempt 1, the delivery is retried (one 2-second back-off sleep) and
succeeds instead of failing immediately. -/
theorem c2_auth_failure_retried_counterexample :
    (fun n => if n = 0 then SmtpAttemptResult.authError "535 authentication failed"
      else SmtpAttemptResult.ok) 0 = .authError "535 authentication failed" ∧
    sendEmailViaSmtpAsync
      (fun n => if n = 0 then SmtpAttemptResult.authError "535 authentication failed"
        else SmtpAttemptResult.ok) 0 = (.ok true, [2]) := by decide

/-- **C2** (amended): the transport wraps authentication failures in the
same `EmailForwardError` as transient SMTP failures and applies the same
retry policy to them: while `retry_count` is below the cap an
authentication failure triggers a linear back-off sleep and a retry, and
only at the cap does it surface (with the authentication message) — a
job hit by an authentication failure is not failed immediately and
authentication failures are not exempted from retrying. -/
theorem c2_amended_auth_failures_retried (oracle : Nat → SmtpAttemptResult)
    (m : String) (rc : Nat) (h : oracle rc = .authError m) :
    (rc < MAX_RETRY_ATTEMPTS →
      sendEmailViaSmtpAsync oracle rc =
        ((sendEmailViaSmtpAsync oracle (rc + 1)).1,
          RETRY_DELAY_SECONDS * (rc + 1) :: (sendEmailViaSmtpAsync oracle (rc + 1)).2)) ∧
    (MAX_RETRY_ATTEMPTS ≤ rc →
      sendEmailViaSmtpAsync oracle rc =
        (.error ("SMTP authentication failed: " ++ m), [])) := by
  constructor
  · intro hrc
    rw [sendEmailViaSmtpAsync_unfold, h]
    simp only [sendSyncResult]
    rw [if_pos hrc]
  · intro hrc
    rw [sendEmailViaSmtpAsync_unfold, h]
    simp only [sendSyncResult]
    rw [if_neg (by omega)]

theorem c2_amended_auth_failures_retried_witness :
    (fun n => if n = 0 then SmtpAttemptResult.authError "535" else SmtpAttemptResult.ok) 0 =
      .authError "535" ∧
    sendEmailViaSmtpAsync
        (fun n => if n = 0 then SmtpAttemptResult.authError "535" else SmtpAttemptResult.ok) 0 =
      ((sendEmailViaSmtpAsync
          (fun n => if n = 0 then SmtpAttemptResult.authError "535" else SmtpAttemptResult.ok) 1).1,
        2 :: (sendEmailViaSmtpAsync
          (fun n => if n = 0 then SmtpAttemptResult.authError "535" else SmtpAttemptResult.ok) 1).2) :=
  ⟨by decide,
    (c2_amended_auth_failures_retried _ "535" 0 (by decide)).1 (by decide)⟩

/-- If attempts `rc, …, rc+K-1` fail with SMTP errors and attempt `rc+K`
succeeds, staying within the retry cap, the loop succeeds after exactly
the `K` linearly growing back-off sleeps. -/
theorem send_ok_after (oracle : Nat → SmtpAttemptResult) (msgs : Nat → String) :
    ∀ (K rc : Nat), rc + K ≤ MAX_RETRY_ATTEMPTS →
      (∀ i, rc ≤ i → i < rc + K → oracle i = .smtpError (msgs i)) →
      oracle (rc + K) = .ok →
      sendEmailViaSmtpAsync oracle rc =
        (.ok true, (List.range K).map (fun i => RETRY_DELAY_SECONDS * (rc + i + 1))) := by
  intro K
  induction K with
  | zero =>
    intro rc _ _ hok
    rw [sendEmailViaSmtpAsync_unfold]
    simp only [Nat.add_zero] at hok
    rw [hok]
    rfl
  | succ K ih =>
    intro rc hcap hfail hok
    have hrc : oracle rc = .smtpError (msgs rc) := hfail rc (le_refl rc) (by omega)
    rw [sendEmailViaSmtpAsync_unfold, hrc]
    simp only [sendSyncResult]
    rw [if_pos (by omega)]
    have hrest := ih (rc + 1) (by omega)
      (fun i h1 h2 => hfail i (by omega) (by omega))
      (by rw [show rc + 1 + K = rc + (K + 1) by omega]; exact hok)
    rw [hrest]
    simp only [List.range_succ_eq_map, List.map_cons, List.map_map, Prod.mk.injEq,
      List.cons.injEq, true_and, Nat.add_zero, Function.comp_apply]
    exact List.map_congr_left (fun i _ => by
      simp only [Function.comp_apply, RETRY_DELAY_SECONDS]
      omega)

/-- If every attempt up to the cap fails with an SMTP error, the loop
performs all three back-off sleeps (2 s, 4 s, 6 s) and surfaces the error
of the *last* attempt. -/
theorem send_exhaust (oracle : Nat → SmtpAttemptResult) (msgs : Nat → String)
    (h : ∀ i, i ≤ MAX_RETRY_ATTEMPTS → oracle i = .smtpError (msgs i)) :
    sendEmailViaSmtpAsync oracle 0 =
      (.error ("SMTP error: " ++ msgs MAX_RETRY_ATTEMPTS), [2, 4, 6]) := by
  have h0 := h 0 (by decide)
  have h1 := h 1 (by decide)
  have h2 := h 2 (by decide)
  have h3 := h 3 (by decide)
  rw [sendEmailViaSmtpAsync_unfold, h0]
  simp only [sendSyncResult]
  rw [if_pos (by decide)]
  rw [sendEmailViaSmtpAsync_unfold, h1]
  simp only [sendSyncResult]
  rw [if_pos (by decide)]
  rw [sendEmailViaSmtpAsync_unfold, h2]
  simp only [sendSyncResult]
  rw [if_pos (by decide)]
  rw [sendEmailViaSmtpAsync_unfold, h3]
  simp only [sendSyncResult]
  rw [if_neg (by decide)]
  show (Except.error ("SMTP error: " ++ msgs 3), [2 * (0 + 1), 2 * (1 + 1), 2 * (2 + 1)]) = _
  norm_num
  rfl

/-- Projections of the `forwarded` result dict when delivery succeeds. -/
theorem processSingleEmail_ok (b64decode : String → List Nat) (raw : String)
    (smtpO : Nat → SmtpAttemptResult) (duration : ℚ) (mid : String) (δ : List Nat)
    (hs : sendEmailViaSmtpAsync smtpO 0 = (.ok true, δ)) :
    detailStr (processSingleEmail b64decode (.msgRaw (some raw)) smtpO duration mid false).1
        "status" = "forwarded" ∧
    detailStr (processSingleEmail b64decode (.msgRaw (some raw)) smtpO duration mid false).1
        "message_id" = mid ∧
    (processSingleEmail b64decode (.msgRaw (some raw)) smtpO duration mid false).2 = δ ∧
    ((processSingleEmail b64decode (.msgRaw (some raw)) smtpO duration mid false).1).map
        Prod.fst = ["message_id", "status", "size_kb", "duration_seconds"] := by
  simp [processSingleEmail, hs, detailStr, detailGet, List.find?]

/-- Projections of the `failed` result dict when delivery exhausts its
retries: the last `EmailForwardError` message becomes the reason. -/
theorem processSingleEmail_err (b64decode : String → List Nat) (raw : String)
    (smtpO : Nat → SmtpAttemptResult) (duration : ℚ) (mid : String) (e : String) (δ : List Nat)
    (hs : sendEmailViaSmtpAsync smtpO 0 = (.error e, δ)) :
    detailStr (processSingleEmail b64decode (.msgRaw (some raw)) smtpO duration mid false).1
        "status" = "failed" ∧
    detailStr (processSingleEmail b64decode (.msgRaw (some raw)) smtpO duration mid false).1
        "reason" = e ∧
    (processSingleEmail b64decode (.msgRaw (some raw)) smtpO duration mid false).2 = δ := by
  simp [processSingleEmail, hs, detailStr, detailGet, List.find?]

/-- **C4** (amended): a delivery that fails with transient SMTP errors on
exactly the first `K` attempts and then succeeds (with `K` within the
retry budget) ends with outcome `forwarded`; the back-off waits before
the retries are `2·1, 2·2, …, 2·K` seconds — strictly increasing
linearly.  The retry count is *not* recorded in the outcome: the
`forwarded` dict carries exactly the fields `message_id`, `status`,
`size_kb`, `duration_seconds`.  A delivery whose transient failures
exhaust all `MAX_RETRY_ATTEMPTS + 1` attempts ends `failed` with the
last attempt's error message as the retained reason. -/
theorem c4_amended_retry_policy (oracle : Nat → SmtpAttemptResult) (msgs : Nat → String)
    (K : Nat) (b64decode : String → List Nat) (raw : String) (duration : ℚ) (mid : String)
    (hK : K ≤ MAX_RETRY_ATTEMPTS)
    (hfail : ∀ i, i < K → oracle i = .smtpError (msgs i))
    (hok : oracle K = .ok) :
    sendEmailViaSmtpAsync oracle 0 =
      (.ok true, (List.range K).map (fun i => RETRY_DELAY_SECONDS * (i + 1))) ∧
    List.Chain' (· < ·) (sendEmailViaSmtpAsync oracle 0).2 ∧
    detailStr (processSingleEmail b64decode (.msgRaw (some raw)) oracle duration mid false).1
        "status" = "forwarded" ∧
    ((processSingleEmail b64decode (.msgRaw (some raw)) oracle duration mid false).1).map
        Prod.fst = ["message_id", "status", "size_kb", "duration_seconds"] ∧
    (∀ (o2 : Nat → SmtpAttemptResult) (m2 : Nat → String),
      (∀ i, i ≤ MAX_RETRY_ATTEMPTS → o2 i = .smtpError (m2 i)) →
      detailStr (processSingleEmail b64decode (.msgRaw (some raw)) o2 duration mid false).1
          "status" = "failed" ∧
      detailStr (processSingleEmail b64decode (.msgRaw (some raw)) o2 duration mid false).1
          "reason" = "SMTP error: " ++ m2 MAX_RETRY_ATTEMPTS ∧
      (processSingleEmail b64decode (.msgRaw (some raw)) o2 duration mid false).2 =
        [2, 4, 6]) := by
  have hsend0 := send_ok_after oracle msgs K 0 (by omega)
    (fun i _ h2 => hfail i (by omega)) (by simpa using hok)
  have hsend : sendEmailViaSmtpAsync oracle 0 =
      (.ok true, (List.range K).map (fun i => RETRY_DELAY_SECONDS * (i + 1))) := by
    rw [hsend0]
    simp only [Prod.mk.injEq, true_and, Nat.zero_add]
  have hchain : List.Chain' (· < ·) (sendEmailViaSmtpAsync oracle 0).2 := by
    rw [hsend]
    apply List.Pairwise.chain'
    rw [List.pairwise_map]
    apply List.Pairwise.imp_of_mem ?_ (List.pairwise_lt_range K)
    intro a b _ _ hab
    simp only [RETRY_DELAY_SECONDS]
    omega
  have hfwd := processSingleEmail_ok b64decode raw oracle duration mid _ hsend
  refine ⟨hsend, hchain, hfwd.1, hfwd.2.2.2, ?_⟩
  intro o2 m2 h2
  have hex := send_exhaust o2 m2 h2
  have herr := processSingleEmail_err b64decode raw o2 duration mid _ _ hex
  exact ⟨herr.1, herr.2.1, herr.2.2⟩

theorem c4_amended_retry_policy_witness :
    ((2 : Nat) ≤ MAX_RETRY_ATTEMPTS) ∧
    sendEmailViaSmtpAsync (fun n => if n < 2 then .smtpError "451 temporary" else .ok) 0 =
      (.ok true, (List.range 2).map (fun i => RETRY_DELAY_SECONDS * (i + 1))) :=
  ⟨by decide,
    (c4_amended_retry_policy (fun n => if n < 2 then .smtpError "451 temporary" else .ok)
      (fun _ => "451 temporary") 2 (fun _ => [65, 66, 67]) "QUJD" 1 "m1"
      (by decide) (fun i hi => by interval_cases i <;> rfl) (by decide)).1⟩

/-- **C4** (counterexample): the claim that "the retry count is recorded
in the outcome" is false.  With two transient failures before success,
the returned dict has exactly the fields `message_id`, `status`,
`size_kb`, `duration_seconds` — and is *identical* to the dict returned
by a run with zero failures, even though two back-off retries (sleeps of
2 s and 4 s) happened: the retry count cannot be recovered from the
outcome. -/
theorem c4_retry_count_not_recorded_counterexample :
    ((processSingleEmail (fun _ => [65, 66, 67]) (.msgRaw (some "QUJD"))
        (fun n => if n < 2 then .smtpError "451 temporary" else .ok) 1 "m1" false).1).map
      Prod.fst = ["message_id", "status", "size_kb", "duration_seconds"] ∧
    (processSingleEmail (fun _ => [65, 66, 67]) (.msgRaw (some "QUJD"))
        (fun n => if n < 2 then .smtpError "451 temporary" else .ok) 1 "m1" false).1 =
      (processSingleEmail (fun _ => [65, 66, 67]) (.msgRaw (some "QUJD"))
        (fun _ => SmtpAttemptResult.ok) 1 "m1" false).1 ∧
    (sendEmailViaSmtpAsync (fun n => if n < 2 then .smtpError "451 temporary" else .ok) 0).2 =
      [2, 4] ∧
    (sendEmailViaSmtpAsync (fun _ => SmtpAttemptResult.ok) 0).2 = [] := by
  have h2 : sendEmailViaSmtpAsync
      (fun n => if n < 2 then .smtpError "451 temporary" else .ok) 0 =
      (.ok true, [2, 4]) := by decide
  have h0 : sendEmailViaSmtpAsync (fun _ => SmtpAttemptResult.ok) 0 = (.ok true, []) := by
    decide
  refine ⟨(processSingleEmail_ok _ "QUJD" _ 1 "m1" _ h2).2.2.2, ?_, by rw [h2], by rw [h0]⟩
  simp [processSingleEmail, h2, h0]

/-- A concrete, fully healthy environment: one linked Gmail credential for
user `u1` / `alice@x.dev` (the hash oracle is instantiated with the
identity for testing), a valid access token (no refresh needed), an empty
dedup ledger, every fetch returning the base64url payload `QUJD`, every
SMTP attempt succeeding. -/
def testEnvOK : ForwardEnv :=
  { sha256hex := fun s => s
    encrypt := fun s => s
    decrypt := fun s => s
    credsValid := true
    refreshResult := .ok ("tok2", "2030-01-01T00:00:00")
    tokenDb := [⟨"u1", "gmail", "alice@x.dev", "alice@x.dev", "tok", "ref",
      none, none, none, some "2030-01-01T00:00:00"⟩]
    importedDb := []
    b64decode := fun _ => [65, 66, 67]
    fetch := fun _ => .msgRaw (some "QUJD")
    smtp := fun _ _ => .ok
    jobDuration := fun _ => 1
    batchDuration := 10
    configOk := true
    inboxDomain := "inbox.receiptdrop.dev" }

/-- **C1**: the claim — every requested message id appears exactly once in
the returned `details` — fails on the code.  The handler parses the
requested ids into `message_id_list` (here `["ab", "cd"]`) but then
iterates the raw string `"ab,cd"`, so `details` carries one entry per
*character* (`"a"`, `"b"`, `","`, `"c"`, `"d"`); the requested ids `"ab"`
and `"cd"` appear zero times. -/
theorem c1_details_are_characters_not_requested_ids :
    parseMessageIds "ab,cd" = ["ab", "cd"] ∧
    (forwardEmails testEnvOK [0, 1, 2, 3, 4] "u1" "alice@x.dev" "ab,cd" 5).1.map
      (fun resp => resp.details.map (fun r => detailStr r "message_id")) =
      .ok ["a", "b", ",", "c", "d"] ∧
    ¬ ("ab" ∈ (["a", "b", ",", "c", "d"] : List String)) ∧
    ¬ ("cd" ∈ (["a", "b", ",", "c", "d"] : List String)) := by decide

/-- **C5**: the claim — `forwarded + skipped + failed == total`, where
`total` is the number of requested message ids — fails on the code.  For
the single requested id `"ab"` the summary reports `total = 2` (the
length of the raw string) and `forwarded = 2` (one job per character);
the counts sum to 2, not to the number of requested ids, which is 1. -/
theorem c5_summary_counts_characters_not_ids :
    parseMessageIds "ab" = ["ab"] ∧
    (parseMessageIds "ab").length = 1 ∧
    (forwardEmails testEnvOK [0, 1] "u1" "alice@x.dev" "ab" 5).1.map
      (fun resp => (resp.summary.total, resp.summary.forwarded, resp.summary.skipped,
        resp.summary.failed)) = .ok (2, 2, 0, 0) ∧
    (2 : Nat) ≠ 1 := by decide

theorem tokenKeyMatches_set_access (u h enc : String) (t : UserEmailToken) :
    tokenKeyMatches u h { t with access_token := enc } = tokenKeyMatches u h t := rfl

theorem applyTokenConflictUpdate_idem (enc u h : String) (t : UserEmailToken) :
    applyTokenConflictUpdate enc u h (applyTokenConflictUpdate enc u h t) =
      applyTokenConflictUpdate enc u h t := by
  unfold applyTokenConflictUpdate
  by_cases hm : tokenKeyMatches u h t = true
  · rw [if_pos hm, if_pos (by rw [tokenKeyMatches_set_access]; exact hm)]
  · rw [if_neg hm, if_neg hm]

theorem tokenKeyMatches_applyTokenConflictUpdate (enc u h : String) (t : UserEmailToken) :
    tokenKeyMatches u h (applyTokenConflictUpdate enc u h t) = tokenKeyMatches u h t := by
  unfold applyTokenConflictUpdate
  by_cases hm : tokenKeyMatches u h t = true
  · rw [if_pos hm, tokenKeyMatches_set_access]
  · rw [if_neg hm]

/-- **C6** (amended): after a successful token refresh, the write-back is
an idempotent upsert keyed on `(user_id, email_provider, email_hash)`
that changes *only* the `access_token` column of the matching record:
`email`, `email_hash`, `refresh_token`, `token_uri`, `client_id`,
`client_secret` and — contrary to the claim — `expiry` are all left
untouched; non-matching records are untouched entirely. -/
theorem c6_amended_upsert_updates_access_token_only (encrypt : String → String)
    (db : List UserEmailToken) (user_id new_token email_hash : String)
    (hmatch : db.any (tokenKeyMatches user_id email_hash) = true) :
    updateAccessToken encrypt db user_id new_token email_hash =
      db.map (applyTokenConflictUpdate (encrypt new_token) user_id email_hash) ∧
    (∀ t : UserEmailToken,
      (applyTokenConflictUpdate (encrypt new_token) user_id email_hash t).user_id = t.user_id ∧
      (applyTokenConflictUpdate (encrypt new_token) user_id email_hash t).email_provider =
        t.email_provider ∧
      (applyTokenConflictUpdate (encrypt new_token) user_id email_hash t).email = t.email ∧
      (applyTokenConflictUpdate (encrypt new_token) user_id email_hash t).email_hash =
        t.email_hash ∧
      (applyTokenConflictUpdate (encrypt new_token) user_id email_hash t).refresh_token =
        t.refresh_token ∧
      (applyTokenConflictUpdate (encrypt new_token) user_id email_hash t).token_uri =
        t.token_uri ∧
      (applyTokenConflictUpdate (encrypt new_token) user_id email_hash t).client_id =
        t.client_id ∧
      (applyTokenConflictUpdate (encrypt new_token) user_id email_hash t).client_secret =
        t.client_secret ∧
      (applyTokenConflictUpdate (encrypt new_token) user_id email_hash t).expiry = t.expiry ∧
      (tokenKeyMatches user_id email_hash t = true →
        (applyTokenConflictUpdate (encrypt new_token) user_id email_hash t).access_token =
          encrypt new_token) ∧
      (tokenKeyMatches user_id email_hash t = false →
        applyTokenConflictUpdate (encrypt new_token) user_id email_hash t = t)) ∧
    updateAccessToken encrypt (updateAccessToken encrypt db user_id new_token email_hash)
        user_id new_token email_hash =
      updateAccessToken encrypt db user_id new_token email_hash := by
  have hmap : updateAccessToken encrypt db user_id new_token email_hash =
      db.map (applyTokenConflictUpdate (encrypt new_token) user_id email_hash) := by
    unfold updateAccessToken
    rw [if_pos hmatch]
  refine ⟨hmap, ?_, ?_⟩
  · intro t
    unfold applyTokenConflictUpdate
    by_cases hm : tokenKeyMatches user_id email_hash t = true
    · simp [hm]
    · simp [hm]
  · have hmatch2 : (db.map (applyTokenConflictUpdate (encrypt new_token) user_id
        email_hash)).any (tokenKeyMatches user_id email_hash) = true := by
      rw [List.any_map]
      rw [List.any_eq_true] at hmatch ⊢
      obtain ⟨t, ht, hp⟩ := hmatch
      exact ⟨t, ht, by simp [Function.comp, tokenKeyMatches_applyTokenConflictUpdate, hp]⟩
    rw [hmap]
    unfold updateAccessToken
    rw [if_pos hmatch2, List.map_map]
    apply List.map_congr_left
    intro t _
    exact applyTokenConflictUpdate_idem _ _ _ t

theorem c6_amended_upsert_witness :
    ([⟨"u1", "gmail", "alice@x.dev", "h1", "oldTok", "ref", none, none, none,
        some "2025-01-01T00:00:00"⟩] : List UserEmailToken).any
      (tokenKeyMatches "u1" "h1") = true ∧
    updateAccessToken (fun s => s)
        [⟨"u1", "gmail", "alice@x.dev", "h1", "oldTok", "ref", none, none, none,
          some "2025-01-01T00:00:00"⟩] "u1" "newTok" "h1" =
      ([⟨"u1", "gmail", "alice@x.dev", "h1", "oldTok", "ref", none, none, none,
          some "2025-01-01T00:00:00"⟩] : List UserEmailToken).map
        (applyTokenConflictUpdate "newTok" "u1" "h1") :=
  ⟨by decide,
    (c6_amended_upsert_updates_access_token_only (fun s => s) _ "u1" "newTok" "h1"
      (by decide)).1⟩

/-- **C6** (counterexample): the claim — the persisted record is updated
with exactly the new access token *and the new expiry* — is false.  With
an expired credential, the refresh returns new expiry
`2031-05-05T00:00:00`, yet the stored record after the write-back still
carries the old expiry `2025-01-01T00:00:00`; only `access_token` was
written. -/
theorem c6_expiry_not_updated_counterexample :
    gmailAsyncInit (fun s => s) (fun s => s) (fun s => s) false
        (.ok ("newTok", "2031-05-05T00:00:00"))
        [⟨"u1", "gmail", "alice@x.dev", "alice@x.dev", "oldTok", "ref", none, none, none,
          some "2025-01-01T00:00:00"⟩] "u1" (some "alice@x.dev") =
      .ok ("alice@x.dev",
        [⟨"u1", "gmail", "alice@x.dev", "alice@x.dev", "newTok", "ref", none, none, none,
          some "2025-01-01T00:00:00"⟩]) ∧
    some "2025-01-01T00:00:00" ≠ some "2031-05-05T00:00:00" := by decide

/-- **C7**: if credential acquisition fails (no token found, or the
provider rejected the refresh), the whole forward call fails with the
500 `Gmail client initialization failed` error before any dedup-ledger
read, any fetch, or any dedup-ledger mark (the event trace is empty),
and the caller receives no partial per-message results. -/
theorem c7_credential_failure_aborts_whole_batch (env : ForwardEnv) (sched : List Nat)
    (user_id email message_ids : String) (cl : Nat) (err : String)
    (hcl : 1 ≤ cl ∧ cl ≤ 10) (hcfg : env.configOk = true)
    (hcred : gmailAsyncInit env.sha256hex env.encrypt env.decrypt env.credsValid
      env.refreshResult env.tokenDb user_id (some email) = .error err) :
    forwardEmails env sched user_id email message_ids cl =
      (.error (500, "Gmail client initialization failed: " ++ err), []) := by
  unfold forwardEmails
  rw [if_neg (not_not_intro hcl)]
  simp only [hcfg, not_true_eq_false, if_false, hcred]

theorem c7_credential_failure_witness :
    (1 ≤ 5 ∧ 5 ≤ 10) ∧
    gmailAsyncInit (fun s => s) (fun s => s) (fun s => s) true
        (.ok ("tok2", "2030-01-01T00:00:00")) [] "u1" (some "alice@x.dev") =
      .error "No Gmail token found for user u1 with email alice@x.dev" ∧
    forwardEmails { testEnvOK with tokenDb := [] } [] "u1" "alice@x.dev" "ab,cd" 5 =
      (.error (500,
        "Gmail client initialization failed: No Gmail token found for user u1 with email alice@x.dev"),
        []) :=
  ⟨by decide, by decide,
    c7_credential_failure_aborts_whole_batch { testEnvOK with tokenDb := [] } [] "u1"
      "alice@x.dev" "ab,cd" 5 "No Gmail token found for user u1 with email alice@x.dev"
      (by decide) (by decide) (by decide)⟩

/-- Every element of a joined list occurs inside the joined string. -/
theorem pyJoin_mem_infix (sep x : String) :
    ∀ (l : List String), x ∈ l → ∃ p q, pyJoin sep l = p ++ x ++ q := by
  intro l
  induction l with
  | nil => intro h; cases h
  | cons a rest ih =>
    intro h
    cases rest with
    | nil =>
      have hx : x = a := by
        cases List.mem_singleton.mp h
        rfl
      subst hx
      refine ⟨"", "", ?_⟩
      show x = "" ++ x ++ ""
      have h1 : "" ++ x = x := String.ext (by simp [String.data_append])
      have h2 : x ++ "" = x := String.ext (by simp [String.data_append])
      rw [h1, h2]
    | cons b rest2 =>
      cases List.mem_cons.mp h with
      | inl hx =>
        subst hx
        refine ⟨"", sep ++ pyJoin sep (b :: rest2), ?_⟩
        show x ++ sep ++ pyJoin sep (b :: rest2) = "" ++ x ++ (sep ++ pyJoin sep (b :: rest2))
        apply String.ext
        simp [String.data_append]
      | inr hx =>
        obtain ⟨p, q, hpq⟩ := ih hx
        refine ⟨a ++ sep ++ p, q, ?_⟩
        show a ++ sep ++ pyJoin sep (b :: rest2) = a ++ sep ++ p ++ x ++ q
        rw [hpq]
        apply String.ext
        simp [String.data_append]

/-- **C8**: acquisition with no matching credential row fails with the
not-linked error (`No Gmail token found …`); acquisition with the
account omitted while at least two credentials match fails with the
ambiguous-account error, whose message contains every candidate row's
decrypted address — no credential is silently picked. -/
theorem c8_not_linked_and_ambiguous_account (sha256hex encrypt decrypt : String → String)
    (credsValid : Bool) (refreshResult : Except String (String × String))
    (db : List UserEmailToken) (user_id : String) (email : Option String) :
    (db.filter (tokenQueryMatches sha256hex user_id email) = [] →
      gmailAsyncInit sha256hex encrypt decrypt credsValid refreshResult db user_id email =
        .error (noTokenMsg user_id email)) ∧
    (emailTruthy email = false →
      2 ≤ (db.filter (tokenQueryMatches sha256hex user_id email)).length →
      ∃ m, gmailAsyncInit sha256hex encrypt decrypt credsValid refreshResult db user_id
          email = .error m ∧
        ∀ t ∈ db.filter (tokenQueryMatches sha256hex user_id email),
          ∃ p q, m = p ++ decrypt t.email ++ q) := by
  constructor
  · intro hnil
    unfold gmailAsyncInit getTokenData
    rw [hnil]
  · intro htr hlen
    unfold gmailAsyncInit getTokenData
    cases hfil : db.filter (tokenQueryMatches sha256hex user_id email) with
    | nil => rw [hfil] at hlen; simp at hlen
    | cons t rest =>
      rw [hfil] at hlen
      have hcond : 1 < (t :: rest).length ∧ ¬ emailTruthy email = true :=
        ⟨by omega, by simp [htr]⟩
      simp only [if_pos hcond]
      refine ⟨_, rfl, ?_⟩
      intro tk htk
      have hmem : decrypt tk.email ∈ (t :: rest).map (fun r => decrypt r.email) :=
        List.mem_map_of_mem _ htk
      obtain ⟨p, q, hpq⟩ := pyJoin_mem_infix ", " (decrypt tk.email) _ hmem
      refine ⟨"User " ++ user_id ++ " has " ++ toString (t :: rest).length ++
        " Gmail accounts linked. Please specify which email to use: " ++ p, q, ?_⟩
      rw [hpq]
      apply String.ext
      simp [String.data_append]

/-- Two credential rows for the same user with no account specified —
the ambiguous-linking situation. -/
def twoTokenDb : List UserEmailToken :=
  [⟨"u1", "gmail", "alice@x.dev", "h1", "a1", "r1", none, none, none, none⟩,
   ⟨"u1", "gmail", "bob@x.dev", "h2", "a2", "r2", none, none, none, none⟩]

theorem c8_not_linked_and_ambiguous_account_witness :
    (([] : List UserEmailToken).filter (tokenQueryMatches (fun s => s) "u9" (some "x@y")) =
        [] ∧
      gmailAsyncInit (fun s => s) (fun s => s) (fun s => s) true
          (.ok ("t", "e")) [] "u9" (some "x@y") =
        .error (noTokenMsg "u9" (some "x@y"))) ∧
    (emailTruthy (none : Option String) = false ∧
      2 ≤ (twoTokenDb.filter (tokenQueryMatches (fun s => s) "u1" none)).length ∧
      ∃ m, gmailAsyncInit (fun s => s) (fun s => s) (fun s => s) true
            (.ok ("t", "e")) twoTokenDb "u1" none = .error m ∧
        ∀ t ∈ twoTokenDb.filter (tokenQueryMatches (fun s => s) "u1" none),
          ∃ p q, m = p ++ (fun s => s) t.email ++ q) :=
  ⟨⟨by decide,
      (c8_not_linked_and_ambiguous_account (fun s => s) (fun s => s) (fun s => s) true
        (.ok ("t", "e")) [] "u9" (some "x@y")).1 (by decide)⟩,
    by decide, by decide,
    (c8_not_linked_and_ambiguous_account (fun s => s) (fun s => s) (fun s => s) true
      (.ok ("t", "e")) twoTokenDb "u1" none).2 (by decide) (by decide)⟩

/-! ### The temporal shape of the batch trace (for the dedup-marking claim) -/

def isMarkEvent : FwdEvent → Bool
  | .markBatch _ _ => true
  | _ => false

/-- Splitting a list that has exactly one `P`-element, sitting last, at a
`P`-element: the split point must be that last element. -/
theorem append_single_split {α : Type} (P : α → Bool) :
    ∀ (A pre suf : List α) (x y : α), (∀ a ∈ A, P a = false) → P x = true → P y = true →
      A ++ [x] = pre ++ y :: suf → pre = A ∧ y = x ∧ suf = [] := by
  intro A
  induction A with
  | nil =>
    intro pre suf x y _ _ _ heq
    cases pre with
    | nil =>
      simp only [List.nil_append] at heq
      cases heq
      exact ⟨rfl, rfl, rfl⟩
    | cons p ps =>
      rw [List.nil_append, List.cons_append] at heq
      injection heq with h1 h2
      exact absurd h2.symm (by simp)
  | cons a A ih =>
    intro pre suf x y hA hx hy heq
    cases pre with
    | nil =>
      simp only [List.cons_append, List.nil_append, List.cons.injEq] at heq
      have hfa := hA a (List.mem_cons_self a A)
      rw [← heq.1] at hy
      rw [hy] at hfa
      cases hfa
    | cons p ps =>
      simp only [List.cons_append, List.cons.injEq] at heq
      obtain ⟨hp, hxy, hs⟩ :=
        ih ps suf x y (fun b hb => hA b (List.mem_cons_of_mem a hb)) hx hy heq.2
      exact ⟨by rw [heq.1, hp], hxy, hs⟩

theorem mem_forwardedIdsOf {rs : List EmailDetail} {mid : String} :
    mid ∈ forwardedIdsOf rs ↔
      ∃ d ∈ rs, detailStr d "status" = "forwarded" ∧ detailStr d "message_id" = mid := by
  unfold forwardedIdsOf
  simp only [List.mem_map, List.mem_filter, beq_iff_eq]
  constructor
  · rintro ⟨d, ⟨hd, hst⟩, hm⟩
    exact ⟨d, hd, hst, hm⟩
  · rintro ⟨d, hd, hst, hm⟩
    exact ⟨d, ⟨hd, hst⟩, hm⟩

theorem forwardedIdsOf_status {rs : List EmailDetail} {d : EmailDetail}
    (hnd : (rs.map (fun r => detailStr r "message_id")).Nodup) (hd : d ∈ rs)
    (hmem : detailStr d "message_id" ∈ forwardedIdsOf rs) :
    detailStr d "status" = "forwarded" := by
  obtain ⟨d2, hd2, hst2, hm2⟩ := mem_forwardedIdsOf.mp hmem
  have : d2 = d := List.inj_on_of_nodup_map hnd hd2 hd hm2
  rw [← this]
  exact hst2

theorem isMark_settleTraceOf (ist : List (String × Bool)) (jobIds : List String)
    (sched : List Nat) :
    ∀ ev ∈ settleTraceOf ist jobIds sched, isMarkEvent ev = false := by
  intro ev hev
  unfold settleTraceOf at hev
  rw [List.mem_flatten] at hev
  obtain ⟨block, hblock, hevb⟩ := hev
  rw [List.mem_map] at hblock
  obtain ⟨i, _, rfl⟩ := hblock
  rw [List.mem_append] at hevb
  cases hevb with
  | inl h =>
    by_cases hc : dictGetBool ist (jobIds.getD i "") = true
    · rw [if_pos hc] at h
      exact absurd h (List.not_mem_nil ev)
    · rw [if_neg hc] at h
      rw [List.mem_singleton] at h
      rw [h]
      rfl
  | inr h =>
    rw [List.mem_singleton] at h
    rw [h]
    rfl

/-- Shape of every `forward_emails` run: either the call aborted before
any work (empty trace), or the trace is the dedup pre-check and the job
events (none of which is a ledger mark), followed — exactly when some
job's outcome is `forwarded` — by the single batched ledger mark with
exactly the forwarded ids. -/
theorem forwardEmails_trace_cases (env : ForwardEnv) (sched : List Nat)
    (user_id email message_ids : String) (cl : Nat) :
    (forwardEmails env sched user_id email message_ids cl).2 = [] ∨
    ∃ resp A,
      forwardEmails env sched user_id email message_ids cl =
        (.ok resp,
          A ++ (if (forwardedIdsOf resp.details).isEmpty then []
            else [FwdEvent.markBatch user_id (forwardedIdsOf resp.details)])) ∧
      (∀ ev ∈ A, isMarkEvent ev = false) := by
  by_cases h1 : ¬ (1 ≤ cl ∧ cl ≤ 10)
  · left
    unfold forwardEmails
    rw [if_pos h1]
  · by_cases h2 : env.configOk = true
    · cases hg : gmailAsyncInit env.sha256hex env.encrypt env.decrypt env.credsValid
          env.refreshResult env.tokenDb user_id (some email) with
      | error e =>
        left
        simp [forwardEmails, h1, h2, hg]
      | ok pr =>
        obtain ⟨ue, db2⟩ := pr
        right
        refine ⟨forwardOkResponse env user_id email message_ids,
          FwdEvent.dedupCheck user_id (requestJobIds message_ids) ::
            settleTraceOf (checkAlreadyImported env.importedDb user_id
              (requestJobIds message_ids)) (requestJobIds message_ids) sched, ?_, ?_⟩
        · simp [forwardEmails, h1, h2, hg, forwardOkResponse, List.cons_append]
        · intro ev hev
          cases List.mem_cons.mp hev with
          | inl h => rw [h]; rfl
          | inr h => exact isMark_settleTraceOf _ _ _ ev h
    · left
      simp [forwardEmails, h1, h2]

/-- **C3**: whenever the batch trace contains a dedup-ledger mark, that
mark is the single last event of the trace — issued strictly after every
job-settled event and every fetch, as one batched insert — its user is
the batch's user, and its id list is exactly the ids of the details whose
outcome is `forwarded`: every marked id has a `forwarded` detail, every
`forwarded` detail's id is marked, and (for a batch whose per-job ids are
distinct, as the spec's set-typed ledger contract assumes) no `skipped`
or `failed` id is ever marked. -/
theorem c3_mark_after_settle_exactly_forwarded (env : ForwardEnv) (sched : List Nat)
    (user_id email message_ids : String) (cl : Nat)
    (pre suf : List FwdEvent) (mu : String) (ids : List String)
    (hsplit : (forwardEmails env sched user_id email message_ids cl).2 =
      pre ++ FwdEvent.markBatch mu ids :: suf) :
    suf = [] ∧
    mu = user_id ∧
    (∀ ev ∈ pre, isMarkEvent ev = false) ∧
    ∃ resp, (forwardEmails env sched user_id email message_ids cl).1 = .ok resp ∧
      ids = forwardedIdsOf resp.details ∧ ids ≠ [] ∧
      (∀ mid ∈ ids, ∃ d ∈ resp.details,
        detailStr d "status" = "forwarded" ∧ detailStr d "message_id" = mid) ∧
      (∀ d ∈ resp.details, detailStr d "status" = "forwarded" →
        detailStr d "message_id" ∈ ids) ∧
      ((resp.details.map (fun d => detailStr d "message_id")).Nodup →
        ∀ d ∈ resp.details, detailStr d "message_id" ∈ ids →
          detailStr d "status" = "forwarded") := by
  cases forwardEmails_trace_cases env sched user_id email message_ids cl with
  | inl hempty =>
    rw [hempty] at hsplit
    exact absurd hsplit.symm (by simp)
  | inr hok =>
    obtain ⟨resp, A, heq, hA⟩ := hok
    have htr : (forwardEmails env sched user_id email message_ids cl).2 =
        A ++ (if (forwardedIdsOf resp.details).isEmpty then []
          else [FwdEvent.markBatch user_id (forwardedIdsOf resp.details)]) := by
      rw [heq]
    by_cases hfw : (forwardedIdsOf resp.details).isEmpty = true
    · rw [if_pos hfw, List.append_nil] at htr
      have hmem : FwdEvent.markBatch mu ids ∈ A := by
        rw [← htr, hsplit]
        exact List.mem_append_right pre (List.mem_cons_self _ _)
      have := hA _ hmem
      simp [isMarkEvent] at this
    · rw [if_neg hfw] at htr
      rw [htr] at hsplit
      obtain ⟨hpre, hmk, hsuf⟩ := append_single_split isMarkEvent A pre suf
        (FwdEvent.markBatch user_id (forwardedIdsOf resp.details))
        (FwdEvent.markBatch mu ids) hA rfl rfl hsplit
      have hmu : mu = user_id := by injection hmk with a b
      have hids : ids = forwardedIdsOf resp.details := by injection hmk with a b
      refine ⟨hsuf, hmu, ?_, resp, ?_, hids, ?_, ?_, ?_, ?_⟩
      · rw [hpre]
        exact hA
      · rw [heq]
      · rw [hids]
        intro hnil
        rw [hnil] at hfw
        simp at hfw
      · intro mid hmid
        rw [hids] at hmid
        obtain ⟨d, hd, hst, hm⟩ := mem_forwardedIdsOf.mp hmid
        exact ⟨d, hd, hst, hm⟩
      · intro d hd hst
        rw [hids]
        exact mem_forwardedIdsOf.mpr ⟨d, hd, hst, rfl⟩
      · intro hnd d hd hmid
        rw [hids] at hmid
        exact forwardedIdsOf_status hnd hd hmid

theorem c3_mark_after_settle_witness :
    ([] : List FwdEvent) = [] ∧
    "u1" = "u1" ∧
    (∀ ev ∈ [FwdEvent.dedupCheck "u1" ["a"], FwdEvent.fetchMsg "a",
        FwdEvent.jobSettled "a"], isMarkEvent ev = false) ∧
    ∃ resp, (forwardEmails testEnvOK [0] "u1" "alice@x.dev" "a" 5).1 = .ok resp ∧
      ["a"] = forwardedIdsOf resp.details ∧ (["a"] : List String) ≠ [] ∧
      (∀ mid ∈ (["a"] : List String), ∃ d ∈ resp.details,
        detailStr d "status" = "forwarded" ∧ detailStr d "message_id" = mid) ∧
      (∀ d ∈ resp.details, detailStr d "status" = "forwarded" →
        detailStr d "message_id" ∈ (["a"] : List String)) ∧
      ((resp.details.map (fun d => detailStr d "message_id")).Nodup →
        ∀ d ∈ resp.details, detailStr d "message_id" ∈ (["a"] : List String) →
          detailStr d "status" = "forwarded") :=
  c3_mark_after_settle_exactly_forwarded testEnvOK [0] "u1" "alice@x.dev" "a" 5
    [FwdEvent.dedupCheck "u1" ["a"], FwdEvent.fetchMsg "a", FwdEvent.jobSettled "a"] []
    "u1" ["a"] (by decide)

/-- **C9**: in every scheduler state reachable from the start of a batch
run under `asyncio.Semaphore(concurrent_limit)` — where each job must
acquire the semaphore before its fetch/deliver work and releases it
afterwards — the number of jobs simultaneously inside the `async with`
block (doing fetch/deliver work) never exceeds `concurrent_limit`; jobs
beyond the limit stay in `waiting` until a slot frees. -/
theorem c9_concurrency_bound (concurrent_limit : Nat) (jobs : List Nat) (s : SemState)
    (h : semReachable concurrent_limit jobs s) :
    s.running.length ≤ concurrent_limit := by
  have hsum := semReachable_sum concurrent_limit jobs s h
  omega

theorem c9_concurrency_bound_witness :
    ((⟨3, [2], [1, 0], []⟩ : SemState).running.length ≤ 5) ∧
    semReachable 5 [0, 1, 2] ⟨3, [2], [1, 0], []⟩ :=
  have step1 : semStep (semInit 5 [0, 1, 2]) ⟨4, [1, 2], [0], []⟩ :=
    semStep.acquire 0 (semInit 5 [0, 1, 2]) (by decide) (by decide)
  have step2 : semStep (⟨4, [1, 2], [0], []⟩ : SemState) ⟨3, [2], [1, 0], []⟩ :=
    semStep.acquire 1 ⟨4, [1, 2], [0], []⟩ (by decide) (by decide)
  have hreach : semReachable 5 [0, 1, 2] ⟨3, [2], [1, 0], []⟩ :=
    Relation.ReflTransGen.tail (Relation.ReflTransGen.tail Relation.ReflTransGen.refl step1)
      step2
  ⟨c9_concurrency_bound 5 [0, 1, 2] ⟨3, [2], [1, 0], []⟩ hreach, hreach⟩
